import Mathlib

/-!
Shallow embedding of `lib/CodeGen/MachineInstr.cpp` (early LLVM backend
machine-instruction data model).

The C++ stores an instruction as an opcode, a single `std::vector<MachineOperand>`
whose final `numImplicitRefs` entries are the implicit references (the comment at
`SetMachineOperandVal`, "may be explicit or implicit op", and the
`getNumOperands()`-based asserts in the other setters document this layout), and a
set of used registers.  `Value*` entities are modelled by `Nat` identities; a null
pointer is `Option.none`.  Fatal `assert`s are modelled by `Option`-returning
operations (`none` = assertion failure).  The per-opcode descriptor table
(`TargetInstrDescriptors`, an external collaborator) is threaded as an explicit
function argument.
-/

/-- Operand variant tags, from `MachineOperand::MachineOperandType`
(declared in the header; the closed set of six kinds is given by the spec and
exercised by the `switch` statements in the rendering code). -/
inductive MachineOperandType where
  | MO_VirtualRegister
  | MO_CCRegister
  | MO_MachineRegister
  | MO_SignExtendedImmed
  | MO_UnextendedImmed
  | MO_PCRelativeDisp
deriving DecidableEq, Repr

/-- Modelled from the spec: the operand flag word (`flags` in the C++), holding the
def bit, the def-and-use bit and the four address-modifier bits
(`DEFFLAG`, `DEFUSEFLAG`, `HIFLAG32`, `LOFLAG32`, `HIFLAG64`, `LOFLAG64`).
The header defining the bit constants is not in the sources; the spec describes
def/use classification and the optional address modifier as independent fields.
`flags = 0` in the C++ corresponds to all fields `false`. -/
structure OperandFlags where
  defflag : Bool
  defuseflag : Bool
  hiflag32 : Bool
  loflag32 : Bool
  hiflag64 : Bool
  loflag64 : Bool
deriving DecidableEq, Repr

/-- The all-clear flag word, i.e. `flags = 0`. -/
def OperandFlags.zero : OperandFlags :=
  ⟨false, false, false, false, false, false⟩

/-- One machine operand: variant tag, referenced symbolic entity (`Value* value`,
`none` = null), immediate literal (`immedVal`), allocated/machine register number
(`regNum`, `-1` = unallocated sentinel) and the flag word. -/
structure MachineOperand where
  opType : MachineOperandType
  value : Option Nat
  immedVal : Int
  regNum : Int
  flags : OperandFlags
deriving DecidableEq, Repr

/-- Modelled from the spec: a default-constructed (unclassified, empty) operand,
as produced for each slot by the pre-sizing constructors and by `replace`. -/
def MachineOperand.initial : MachineOperand :=
  { opType := .MO_VirtualRegister, value := none, immedVal := 0, regNum := -1,
    flags := .zero }

/-- Modelled from the spec: `markDef` sets the def bit of the flag word
(def/use classification `Def`). -/
def MachineOperand.markDef (o : MachineOperand) : MachineOperand :=
  { o with flags := { o.flags with defflag := true } }

/-- Modelled from the spec: `markDefAndUse` sets the def-and-use bit of the flag
word (def/use classification `DefAndUse`). -/
def MachineOperand.markDefAndUse (o : MachineOperand) : MachineOperand :=
  { o with flags := { o.flags with defuseflag := true } }

/-- Modelled from the spec: `opIsDef` — the operand is classified as a
definition (the def bit is set). -/
def MachineOperand.opIsDef (o : MachineOperand) : Bool :=
  o.flags.defflag

/-- Modelled from the spec: `opIsDefAndUse` — the def-and-use bit is set. -/
def MachineOperand.opIsDefAndUse (o : MachineOperand) : Bool :=
  o.flags.defuseflag

/-- Modelled from the spec: `hasAllocatedReg` — a register has been bound, i.e.
`regNum` is no longer the `-1` "unallocated" sentinel. -/
def MachineOperand.hasAllocatedReg (o : MachineOperand) : Bool :=
  decide (0 ≤ o.regNum)

/-- Modelled from the spec: `setRegForValue` binds the allocated register number
of an operand (post-allocation binding of `bind_register`). -/
def MachineOperand.setRegForValue (o : MachineOperand) (r : Int) : MachineOperand :=
  { o with regNum := r }

/-- One entry of the external opcode descriptor table
(`MachineInstrDescriptor`): display name, declared operand count (negative =
variable arity) and declared result-operand position (negative = none). -/
structure MachineInstrDescriptor where
  Name : String
  numOperands : Int
  resultPos : Int

/-- The external opcode descriptor table `TargetInstrDescriptors`, threaded as a
function from opcode to descriptor. -/
def DescriptorTable : Type := Nat → MachineInstrDescriptor

/-- One machine instruction: opcode, the single operand vector whose last
`numImplicitRefs` entries are the implicit references, and the derived
used-register set (`regsUsed`, modelled as a list with set-insertion). -/
structure MachineInstr where
  opCode : Nat
  operands : List MachineOperand
  numImplicitRefs : Nat
  regsUsed : List Int
deriving DecidableEq, Repr

/-- Modelled from the spec: `getNumOperands` — the number of explicit operands,
i.e. the operand vector length minus the trailing implicit references. -/
def MachineInstr.getNumOperands (MI : MachineInstr) : Nat :=
  MI.operands.length - MI.numImplicitRefs

/-- Modelled from the spec: `insertUsedReg` records a register number in the
instruction's derived used-register set. -/
def MachineInstr.insertUsedReg (MI : MachineInstr) (r : Int) : MachineInstr :=
  { MI with regsUsed := MI.regsUsed.insert r }

/-- Modelled from the spec: `getImplicitRef i` — the symbolic entity of the
i-th implicit reference (stored at vector position `getNumOperands + i`). -/
def MachineInstr.getImplicitRef (MI : MachineInstr) (i : Nat) : Option Nat :=
  match MI.operands[MI.getNumOperands + i]? with
  | some o => o.value
  | none => none

/-- Modelled from the spec: `implicitRefIsDefined i` — the def bit of the i-th
implicit reference. -/
def MachineInstr.implicitRefIsDefined (MI : MachineInstr) (i : Nat) : Bool :=
  match MI.operands[MI.getNumOperands + i]? with
  | some o => o.opIsDef
  | none => false

/-- `MachineInstr::MachineInstr(MachineOpCode)`: fixed-arity construction; the
operand vector is pre-sized to the descriptor's declared count with default
operands; the declared count is asserted non-negative. -/
def MachineInstr.mkFixed (TID : DescriptorTable) (opc : Nat) : Option MachineInstr :=
  if 0 ≤ (TID opc).numOperands then
    some { opCode := opc,
           operands := List.replicate (TID opc).numOperands.toNat .initial,
           numImplicitRefs := 0, regsUsed := [] }
  else none

/-- `MachineInstr::MachineInstr(MachineOpCode, unsigned)`: explicit-arity
construction; the operand vector is pre-sized to the given count. -/
def MachineInstr.mkExplicit (opc : Nat) (numOperands : Nat) : MachineInstr :=
  { opCode := opc, operands := List.replicate numOperands .initial,
    numImplicitRefs := 0, regsUsed := [] }

/-- `MachineInstr::OperandsComplete`: true when the descriptor declares a
non-negative count and the current explicit operand count has reached or
exceeded it. -/
def MachineInstr.OperandsComplete (TID : DescriptorTable) (MI : MachineInstr) : Bool :=
  let N : Int := (TID MI.opCode).numOperands
  if 0 ≤ N ∧ N.toNat ≤ MI.getNumOperands then true else false

/-- `MachineInstr::replace`: asserts there are no implicit references, then
resets the opcode and discards+reinitializes the operand vector to
`numOperands` default operands. -/
def MachineInstr.replace (MI : MachineInstr) (opc : Nat) (numOperands : Nat) :
    Option MachineInstr :=
  if MI.numImplicitRefs = 0 then
    some { MI with opCode := opc,
                   operands := List.replicate numOperands MachineOperand.initial }
  else none

/-- `MachineInstr::SetMachineOperandVal`: asserts `i < operands.size()` (the slot
may be explicit or implicit), overwrites the slot's variant tag, value, register
(`-1`) and flag word (`0`), then marks the def bit when `isdef` is true or the
descriptor's result position equals `i`, and the def-and-use bit when
`isDefAndUse` is true.  (`immedVal` is the only field left untouched.) -/
def MachineInstr.SetMachineOperandVal (TID : DescriptorTable) (MI : MachineInstr)
    (i : Nat) (opType : MachineOperandType) (V : Nat)
    (isdef : Bool) (isDefAndUse : Bool) : Option MachineInstr :=
  match MI.operands[i]? with
  | none => none
  | some old =>
    let o1 : MachineOperand :=
      { opType := opType, value := some V, immedVal := old.immedVal,
        regNum := -1, flags := .zero }
    let o2 := if isdef = true ∨ (TID MI.opCode).resultPos = (i : Int)
              then o1.markDef else o1
    let o3 := if isDefAndUse then o2.markDefAndUse else o2
    some { MI with operands := MI.operands.set i o3 }

/-- `MachineInstr::SetMachineOperandConst`: asserts `i < getNumOperands()` (the
slot must be explicit) and that `i` is not the descriptor's result position
("immed. constant cannot be defined"), then overwrites the slot with the
immediate: variant tag, null value, literal, register `-1`, flag word `0`. -/
def MachineInstr.SetMachineOperandConst (TID : DescriptorTable) (MI : MachineInstr)
    (i : Nat) (operandType : MachineOperandType) (intValue : Int) :
    Option MachineInstr :=
  if i < MI.getNumOperands ∧ (TID MI.opCode).resultPos ≠ (i : Int) then
    let o : MachineOperand :=
      { opType := operandType, value := none, immedVal := intValue,
        regNum := -1, flags := .zero }
    some { MI with operands := MI.operands.set i o }
  else none

/-- `MachineInstr::SetMachineOperandReg`: asserts `i < getNumOperands()` (the
slot must be explicit), overwrites the slot with a machine-register operand
(null value, register number `regNum`, flag word `0`), marks the def bit when
`isdef` is true or the descriptor's result position equals `i`, and records
`regNum` in the used-register set. -/
def MachineInstr.SetMachineOperandReg (TID : DescriptorTable) (MI : MachineInstr)
    (i : Nat) (regNum : Int) (isdef : Bool) : Option MachineInstr :=
  if i < MI.getNumOperands then
    match MI.operands[i]? with
    | none => none
    | some old =>
      let o1 : MachineOperand :=
        { opType := .MO_MachineRegister, value := none, immedVal := old.immedVal,
          regNum := regNum, flags := .zero }
      let o2 := if isdef = true ∨ (TID MI.opCode).resultPos = (i : Int)
                then o1.markDef else o1
      some (({ MI with operands := MI.operands.set i o2 } :
              MachineInstr).insertUsedReg regNum)
  else none

/-- `MachineInstr::SetRegForOperand`: asserts `i < getNumOperands()`, binds the
allocated register of the slot via `setRegForValue` and records it in the
used-register set. -/
def MachineInstr.SetRegForOperand (MI : MachineInstr) (i : Nat) (regNum : Int) :
    Option MachineInstr :=
  if i < MI.getNumOperands then
    match MI.operands[i]? with
    | none => none
    | some old =>
      some (({ MI with operands := MI.operands.set i (old.setRegForValue regNum) } :
              MachineInstr).insertUsedReg regNum)
  else none

/-- The per-entry rewrite condition of `MachineInstr::substituteValue`: the
entry's current reference equals `oldVal`, and either `defsOnly` is false or
the entry is classified as a definition.  (The explicit-operand loop visits via
the value-operand iterator, which only yields operands carrying a non-null
symbolic reference — subsumed here by `value = some oldVal`; the implicit-ref
loop compares `getImplicitRef(i)` and checks `implicitRefIsDefined(i)`, the
same fields of the same vector entries.) -/
def substCond (oldVal : Nat) (defsOnly : Bool) (o : MachineOperand) : Bool :=
  decide (o.value = some oldVal) && (!defsOnly || o.opIsDef)

/-- The traversal of `MachineInstr::substituteValue` over a region of the
operand vector: left to right, rewriting each entry matching `substCond` to
reference `newVal` and counting the rewrites. -/
def substLoop (oldVal newVal : Nat) (defsOnly : Bool) :
    List MachineOperand → List MachineOperand × Nat
  | [] => ([], 0)
  | o :: rest =>
    let r := substLoop oldVal newVal defsOnly rest
    if substCond oldVal defsOnly o then
      ({ o with value := some newVal } :: r.1, r.2 + 1)
    else (o :: r.1, r.2)

/-- `MachineInstr::substituteValue`: the first loop walks the explicit operands
(vector positions below `getNumOperands`) in order, the second walks the
implicit references (the remaining trailing positions) in order, with the same
per-entry action; together they are one left-to-right pass over the operand
vector. -/
def MachineInstr.substituteValue (MI : MachineInstr) (oldVal newVal : Nat)
    (defsOnly : Bool) : MachineInstr × Nat :=
  let r := substLoop oldVal newVal defsOnly MI.operands
  ({ MI with operands := r.1 }, r.2)

/-- The external register-naming service (`MRegisterInfo`): human name per
register and the first-virtual-register numbering threshold. -/
structure MRegisterInfo where
  regName : Int → String
  FirstVirtualRegister : Int

/-- Display attributes of the external symbolic entities (`Value`): whether an
entity has a name, its name, and whether it is a function or basic block
(`isa<Function> || isa<BasicBlock>`).  A raw pointer identity is rendered as
`&` followed by the entity number, and the null pointer as `0x0`. -/
structure RenderEnv where
  valHasName : Nat → Bool
  valName : Nat → String
  isLabel : Nat → Bool

/-- `OutputValue`: `(val name)` for a named entity, else `(val <address>)`. -/
def OutputValue (env : RenderEnv) (val : Option Nat) : String :=
  "(val " ++
    (match val with
     | some v => if env.valHasName v then env.valName v else "&" ++ toString v
     | none => "0x0") ++ ")"

/-- `OutputReg`: with a register-info service, registers below the
first-virtual-register threshold render with their human name and others as
`%reg<N>`; without one (the default argument `MRI = 0`) every register renders
as `%mreg(<N>)`. -/
def OutputReg (mri : Option MRegisterInfo) (RegNo : Int) : String :=
  match mri with
  | some M =>
    if RegNo < M.FirstVirtualRegister then "%" ++ M.regName RegNo
    else "%reg" ++ toString RegNo
  | none => "%mreg(" ++ toString RegNo ++ ")"

/-- The raw-identity rendering of `opVal->getName()` / `(const void*)opVal`
shared by both `MO_PCRelativeDisp` branches. -/
def dispName (env : RenderEnv) (val : Option Nat) : String :=
  match val with
  | some v => if env.valHasName v then env.valName v else "&" ++ toString v
  | none => "0x0"

/-- The address-modifier opening marker shared by both rendering paths:
`%lm(`, `%lo(`, `%hh(`, `%hm(` chosen by the first set flag, else nothing. -/
def modifierOpen (f : OperandFlags) : String :=
  if f.hiflag32 then "%lm("
  else if f.loflag32 then "%lo("
  else if f.hiflag64 then "%hh("
  else if f.loflag64 then "%hm("
  else ""

/-- `print(const MachineOperand&, std::ostream&, const TargetMachine&)`: the
target-aware operand rendering; `mri` is `TM.getRegisterInfo()`.  A
`MO_VirtualRegister` operand prints its `%reg(val ...)` part only when the
value is non-null, and its allocated register only when one is bound. -/
def printOperand (env : RenderEnv) (mri : Option MRegisterInfo)
    (MO : MachineOperand) : String :=
  let core : String :=
    match MO.opType with
    | .MO_VirtualRegister =>
      (match MO.value with
       | some v =>
         "%reg" ++ OutputValue env (some v) ++
           (if MO.hasAllocatedReg then "==" else "")
       | none => "") ++
      (if MO.hasAllocatedReg then OutputReg mri MO.regNum else "")
    | .MO_CCRegister =>
      "%ccreg" ++ OutputValue env MO.value ++
        (if MO.hasAllocatedReg then "==" ++ OutputReg mri MO.regNum else "")
    | .MO_MachineRegister => OutputReg mri MO.regNum
    | .MO_SignExtendedImmed => toString MO.immedVal
    | .MO_UnextendedImmed => toString MO.immedVal
    | .MO_PCRelativeDisp =>
      let isLbl := match MO.value with
                   | some v => env.isLabel v
                   | none => false
      "%disp(" ++ (if isLbl then "label " else "addr-of-val ") ++
        dispName env MO.value ++ ")"
  let closeParen : Bool :=
    MO.flags.hiflag32 || MO.flags.loflag32 || MO.flags.hiflag64 || MO.flags.loflag64
  modifierOpen MO.flags ++ core ++ (if closeParen then ")" else "")

/-- `operator<<(std::ostream&, const MachineOperand&)`: the context-free
fallback rendering; `OutputReg` is always called with its default null
register-info argument.  A `MO_VirtualRegister` operand always prints
`%reg` and its value (even when null), then `==` and the register when
one is allocated. -/
def streamOperand (env : RenderEnv) (MO : MachineOperand) : String :=
  let core : String :=
    match MO.opType with
    | .MO_VirtualRegister =>
      "%reg" ++ OutputValue env MO.value ++
        (if MO.hasAllocatedReg then "==" ++ OutputReg none MO.regNum else "")
    | .MO_CCRegister =>
      "%ccreg" ++ OutputValue env MO.value ++
        (if MO.hasAllocatedReg then "==" ++ OutputReg none MO.regNum else "")
    | .MO_MachineRegister => OutputReg none MO.regNum
    | .MO_SignExtendedImmed => toString MO.immedVal
    | .MO_UnextendedImmed => toString MO.immedVal
    | .MO_PCRelativeDisp =>
      let isLbl := match MO.value with
                   | some v => env.isLabel v
                   | none => false
      "%disp(" ++ (if isLbl then "label " else "addr-of-val ") ++
        dispName env MO.value ++ ")"
  let closeParen : Bool :=
    MO.flags.hiflag32 || MO.flags.loflag32 || MO.flags.hiflag64 || MO.flags.loflag64
  modifierOpen MO.flags ++ core ++ (if closeParen then ")" else "")

/-! Concrete fixtures used by the scenario parts of the claims and by
counterexamples and witnesses. -/

/-- A descriptor table whose every opcode declares 2 operands with result at
position 0. -/
def TIDres0 : DescriptorTable :=
  fun _ => { Name := "op", numOperands := 2, resultPos := 0 }

/-- A descriptor table whose every opcode declares 3 operands and no result
position. -/
def TIDnores : DescriptorTable :=
  fun _ => { Name := "op", numOperands := 3, resultPos := -1 }

/-- A virtual-register operand referencing entity 1, classified as a use. -/
def opUse1 : MachineOperand :=
  { opType := .MO_VirtualRegister, value := some 1, immedVal := 0, regNum := -1,
    flags := .zero }

/-- A virtual-register operand referencing entity 1, classified as a def. -/
def opDef1 : MachineOperand :=
  { opType := .MO_VirtualRegister, value := some 1, immedVal := 0, regNum := -1,
    flags := { OperandFlags.zero with defflag := true } }

/-- The instruction of the substitution scenario: explicit operands
`[use(a), def(a)]` and one implicit `use(a)`, with `a` the entity 1. -/
def substMI : MachineInstr :=
  { opCode := 0, operands := [opUse1, opDef1, opUse1], numImplicitRefs := 1,
    regsUsed := [] }

/-- An instruction with one explicit operand and one implicit reference. -/
def oneExplOneImpl : MachineInstr :=
  { opCode := 0, operands := [MachineOperand.initial, MachineOperand.initial],
    numImplicitRefs := 1, regsUsed := [] }

/-- A rendering environment with nameless, non-label entities. -/
def envPlain : RenderEnv :=
  { valHasName := fun _ => false, valName := fun _ => "", isLabel := fun _ => false }

/-! Helper lemmas shared by the claim theorems. -/

/-- The flag word produced by a setter: cleared, then the def bit and
def-and-use bit per the marking conditions. -/
def markedFlags (defbit dubit : Bool) : OperandFlags :=
  ⟨defbit, dubit, false, false, false, false⟩

/-- The operand written by `SetMachineOperandVal` (its `immedVal` is the prior
slot's, the only field the setter does not write). -/
def valOperand (ty : MachineOperandType) (V : Nat) (immed : Int)
    (defbit dubit : Bool) : MachineOperand :=
  { opType := ty, value := some V, immedVal := immed, regNum := -1,
    flags := markedFlags defbit dubit }

/-- The operand written by `SetMachineOperandReg`. -/
def regOperand (r : Int) (immed : Int) (defbit : Bool) : MachineOperand :=
  { opType := .MO_MachineRegister, value := none, immedVal := immed, regNum := r,
    flags := markedFlags defbit false }

theorem lt_length_of_lt_getNumOperands (MI : MachineInstr) (i : Nat)
    (h : i < MI.getNumOperands) : i < MI.operands.length := by
  unfold MachineInstr.getNumOperands at h
  omega

theorem substLoop_fst (ov nv : Nat) (d : Bool) (l : List MachineOperand) :
    (substLoop ov nv d l).1 =
      l.map (fun o => if substCond ov d o then { o with value := some nv } else o) := by
  induction l with
  | nil => rfl
  | cons o rest ih =>
    simp only [substLoop, List.map_cons]
    split
    · rename_i h
      simp [h, ih]
    · rename_i h
      simp only [Bool.not_eq_true] at h
      simp [h, ih]

theorem substLoop_snd (ov nv : Nat) (d : Bool) (l : List MachineOperand) :
    (substLoop ov nv d l).2 = l.countP (substCond ov d) := by
  induction l with
  | nil => rfl
  | cons o rest ih =>
    simp only [substLoop, List.countP_cons]
    split
    · rename_i h
      simp [h, ih]
    · rename_i h
      simp only [Bool.not_eq_true] at h
      simp [h, ih]

theorem substLoop_map_inv {β : Type} (ov nv : Nat) (d : Bool)
    (f : MachineOperand → β)
    (hf : ∀ o : MachineOperand, f { o with value := some nv } = f o)
    (l : List MachineOperand) :
    (substLoop ov nv d l).1.map f = l.map f := by
  induction l with
  | nil => rfl
  | cons o rest ih =>
    simp only [substLoop]
    split
    · simp [ih, hf]
    · simp [ih]

theorem substLoop_length (ov nv : Nat) (d : Bool) (l : List MachineOperand) :
    (substLoop ov nv d l).1.length = l.length := by
  induction l with
  | nil => rfl
  | cons o rest ih =>
    simp only [substLoop]
    split <;> simp [ih]

theorem SetMachineOperandVal_char (TID : DescriptorTable) (MI : MachineInstr)
    (i : Nat) (ty : MachineOperandType) (V : Nat) (d du : Bool) :
    MI.SetMachineOperandVal TID i ty V d du =
      match MI.operands[i]? with
      | none => none
      | some old =>
        some { MI with operands := MI.operands.set i (valOperand ty V old.immedVal
          (d || decide ((TID MI.opCode).resultPos = (i : Int))) du) } := by
  unfold MachineInstr.SetMachineOperandVal
  cases hx : MI.operands[i]? with
  | none => rfl
  | some old =>
    by_cases h : (TID MI.opCode).resultPos = (i : Int) <;>
      cases d <;> cases du <;>
        simp [h, MachineOperand.markDef, MachineOperand.markDefAndUse,
              markedFlags, valOperand, OperandFlags.zero]

theorem SetMachineOperandReg_char (TID : DescriptorTable) (MI : MachineInstr)
    (i : Nat) (r : Int) (d : Bool) :
    MI.SetMachineOperandReg TID i r d =
      if i < MI.getNumOperands then
        match MI.operands[i]? with
        | none => none
        | some old =>
          some (({ MI with operands := MI.operands.set i (regOperand r old.immedVal
            (d || decide ((TID MI.opCode).resultPos = (i : Int)))) } :
            MachineInstr).insertUsedReg r)
      else none := by
  unfold MachineInstr.SetMachineOperandReg
  by_cases hi : i < MI.getNumOperands
  · simp only [hi, if_true]
    cases hx : MI.operands[i]? with
    | none => rfl
    | some old =>
      by_cases h : (TID MI.opCode).resultPos = (i : Int) <;>
        cases d <;>
          simp [h, MachineOperand.markDef, markedFlags, regOperand,
                OperandFlags.zero]
  · simp [hi]

/-! Claim theorems. -/

/-- C1: `substituteValue` makes one stable left-to-right pass over the operand
vector (explicit operands in operand order, then the trailing implicit
references in order); every entry whose reference equals `old_ref` and for
which `defs_only` is false or the entry is a definition is rewritten to
`new_ref` and counted, and nothing else changes position.  In particular, on
`[use(a), def(a)]` with one implicit `use(a)`, `(a, b, false)` returns 3 and
retargets all three, `(a, b, true)` returns 1 changing only the `def(a)`
operand, and a repeated `(a, b, false)` call returns 0. -/
theorem C1_substituteValue_rewrites_and_counts :
    (∀ (MI : MachineInstr) (a b : Nat) (d : Bool),
        (MI.substituteValue a b d).2 = MI.operands.countP (substCond a d) ∧
        (MI.substituteValue a b d).1.operands =
          MI.operands.map
            (fun o => if substCond a d o then { o with value := some b } else o)) ∧
    (substMI.substituteValue 1 2 false).2 = 3 ∧
    (substMI.substituteValue 1 2 false).1.operands.map MachineOperand.value =
      [some 2, some 2, some 2] ∧
    ((substMI.substituteValue 1 2 false).1.substituteValue 1 2 false).2 = 0 ∧
    (substMI.substituteValue 1 2 true).2 = 1 ∧
    (substMI.substituteValue 1 2 true).1.operands.map MachineOperand.value =
      [some 1, some 2, some 1] := by
  refine ⟨fun MI a b d => ⟨?_, ?_⟩, by decide, by decide, by decide, by decide,
    by decide⟩
  · simp [MachineInstr.substituteValue, substLoop_snd]
  · simp [MachineInstr.substituteValue, substLoop_fst]

/-- C2: substitution never changes any entry's kind or flag word (so the
def/use classification of every explicit operand and every implicit reference
is preserved), nor the implicit-reference count or explicit operand count. -/
theorem C2_substituteValue_preserves_classification :
    ∀ (MI : MachineInstr) (a b : Nat) (d : Bool),
      (MI.substituteValue a b d).1.operands.map MachineOperand.opType =
        MI.operands.map MachineOperand.opType ∧
      (MI.substituteValue a b d).1.operands.map MachineOperand.flags =
        MI.operands.map MachineOperand.flags ∧
      (MI.substituteValue a b d).1.numImplicitRefs = MI.numImplicitRefs ∧
      (MI.substituteValue a b d).1.getNumOperands = MI.getNumOperands ∧
      (∀ j : Nat, (MI.substituteValue a b d).1.implicitRefIsDefined j =
        MI.implicitRefIsDefined j) := by
  intro MI a b d
  have hty := substLoop_map_inv a b d MachineOperand.opType (fun o => rfl) MI.operands
  have hfl := substLoop_map_inv a b d MachineOperand.flags (fun o => rfl) MI.operands
  have hlen := substLoop_length a b d MI.operands
  have hnum : (MI.substituteValue a b d).1.getNumOperands = MI.getNumOperands := by
    simp [MachineInstr.substituteValue, MachineInstr.getNumOperands, hlen]
  refine ⟨hty, hfl, rfl, hnum, fun j => ?_⟩
  have hdef := substLoop_map_inv a b d MachineOperand.opIsDef
    (fun o => rfl) MI.operands
  unfold MachineInstr.implicitRefIsDefined
  rw [hnum]
  show (match (MI.substituteValue a b d).1.operands[MI.getNumOperands + j]? with
        | some o => o.opIsDef
        | none => false) =
       (match MI.operands[MI.getNumOperands + j]? with
        | some o => o.opIsDef
        | none => false)
  have : (MI.substituteValue a b d).1.operands[MI.getNumOperands + j]?.map
      MachineOperand.opIsDef =
      MI.operands[MI.getNumOperands + j]?.map MachineOperand.opIsDef := by
    have h1 : (MI.substituteValue a b d).1.operands.map MachineOperand.opIsDef =
        MI.operands.map MachineOperand.opIsDef := hdef
    calc (MI.substituteValue a b d).1.operands[MI.getNumOperands + j]?.map
          MachineOperand.opIsDef
        = ((MI.substituteValue a b d).1.operands.map
            MachineOperand.opIsDef)[MI.getNumOperands + j]? := by
          rw [List.getElem?_map]
      _ = (MI.operands.map MachineOperand.opIsDef)[MI.getNumOperands + j]? := by
          rw [h1]
      _ = MI.operands[MI.getNumOperands + j]?.map MachineOperand.opIsDef := by
          rw [List.getElem?_map]
  cases hx : (MI.substituteValue a b d).1.operands[MI.getNumOperands + j]? <;>
    cases hy : MI.operands[MI.getNumOperands + j]? <;>
      rw [hx, hy] at this <;> simp_all

/-- C3 counterexample: on an instruction with one explicit operand
(`operand_count() = 1`) and one implicit reference, `SetMachineOperandVal` at
index 1 — which is not `< operand_count()` — succeeds instead of fatally
rejecting: its assert is `i < operands.size()` ("may be explicit or implicit
op"), not `i < getNumOperands()`. -/
theorem C3_counterexample_val_accepts_implicit_slot :
    oneExplOneImpl.getNumOperands = 1 ∧
    decide (1 < oneExplOneImpl.getNumOperands) = false ∧
    (oneExplOneImpl.SetMachineOperandVal TIDnores 1 .MO_VirtualRegister 7
      false false).isSome = true := by
  decide

/-- C3 (amended): `SetMachineOperandConst` and `SetMachineOperandReg` validate
`index < operand_count()` (`SetMachineOperandConst` additionally requires the
index to differ from the descriptor's result position), but
`SetMachineOperandVal` validates `index < operand_count() + implicit_ref_count()`
— the slot may be explicit or implicit — and fatally rejects only indices
beyond the whole operand vector. -/
theorem C3_amended_setter_index_validation :
    ∀ (TID : DescriptorTable) (MI : MachineInstr) (i : Nat)
      (ty : MachineOperandType) (V : Nat) (d du : Bool) (r iv : Int),
      ((MI.SetMachineOperandReg TID i r d).isSome = true ↔
        i < MI.getNumOperands) ∧
      ((MI.SetMachineOperandConst TID i ty iv).isSome = true ↔
        (i < MI.getNumOperands ∧ (TID MI.opCode).resultPos ≠ (i : Int))) ∧
      ((MI.SetMachineOperandVal TID i ty V d du).isSome = true ↔
        i < MI.operands.length) := by
  intro TID MI i ty V d du r iv
  refine ⟨?_, ?_, ?_⟩
  · rw [SetMachineOperandReg_char]
    by_cases hi : i < MI.getNumOperands
    · have hl : i < MI.operands.length := lt_length_of_lt_getNumOperands MI i hi
      rw [List.getElem?_eq_getElem hl]
      simp [hi]
    · simp [hi]
  · unfold MachineInstr.SetMachineOperandConst
    by_cases hc : i < MI.getNumOperands ∧ (TID MI.opCode).resultPos ≠ (i : Int)
    · simp [hc]
    · simp [hc]
  · rw [SetMachineOperandVal_char]
    cases hx : MI.operands[i]? with
    | none =>
      simp only [Option.isSome_none]
      rw [List.getElem?_eq_none_iff] at hx
      simp
      omega
    | some old =>
      have hl : i < MI.operands.length := by
        by_contra hc
        rw [List.getElem?_eq_none (by omega)] at hx
        exact Option.noConfusion hx
      simp [hl]

/-- C5: for every in-range explicit index, `SetMachineOperandConst` fatally
rejects exactly when the index equals the descriptor's result position,
regardless of the kind and literal arguments; at any other in-range index it
succeeds and stores the immediate operand. -/
theorem C5_const_rejects_result_position :
    ∀ (TID : DescriptorTable) (MI : MachineInstr) (i : Nat)
      (ty : MachineOperandType) (v : Int),
      i < MI.getNumOperands →
      (((TID MI.opCode).resultPos = (i : Int) →
          MI.SetMachineOperandConst TID i ty v = none) ∧
       ((TID MI.opCode).resultPos ≠ (i : Int) →
          ∃ MI', MI.SetMachineOperandConst TID i ty v = some MI' ∧
            MI'.operands[i]? = some
              { opType := ty, value := none, immedVal := v, regNum := -1,
                flags := .zero })) := by
  intro TID MI i ty v hi
  constructor
  · intro hres
    unfold MachineInstr.SetMachineOperandConst
    simp [hres]
  · intro hres
    unfold MachineInstr.SetMachineOperandConst
    simp only [hi, hres, and_true, true_and, if_pos, ne_eq, not_false_iff]
    refine ⟨_, rfl, ?_⟩
    exact List.getElem?_set_eq_of_lt _ (lt_length_of_lt_getNumOperands MI i hi)

/-- C5 witness: on a two-operand instruction whose descriptor declares operand
0 as the result, storing an immediate is checked at index 0. -/
theorem C5_const_rejects_result_position_witness :
    ((TIDres0 (MachineInstr.mkExplicit 0 2).opCode).resultPos = ((0 : Nat) : Int) →
      (MachineInstr.mkExplicit 0 2).SetMachineOperandConst TIDres0 0
        .MO_SignExtendedImmed 42 = none) ∧
    ((TIDres0 (MachineInstr.mkExplicit 0 2).opCode).resultPos ≠ ((0 : Nat) : Int) →
      ∃ MI', (MachineInstr.mkExplicit 0 2).SetMachineOperandConst TIDres0 0
          .MO_SignExtendedImmed 42 = some MI' ∧
        MI'.operands[0]? = some
          { opType := .MO_SignExtendedImmed, value := none, immedVal := 42,
            regNum := -1, flags := .zero }) :=
  C5_const_rejects_result_position TIDres0 (MachineInstr.mkExplicit 0 2) 0
    .MO_SignExtendedImmed 42 (by decide)

/-- C6: after `SetMachineOperandVal` or `SetMachineOperandReg`, the slot is
classified as a definition exactly when the explicit `isdef` flag is true or
the descriptor's result position equals the index, and as def-and-use exactly
when `isDefAndUse` is true; in particular
`set_value_operand(0, VirtualRegisterRef, V, false, false)` on an opcode whose
descriptor declares operand 0 as the result yields a defined operand with no
allocated register. -/
theorem C6_def_classification_from_flag_or_descriptor :
    (∀ (TID : DescriptorTable) (MI : MachineInstr) (i : Nat)
       (ty : MachineOperandType) (V : Nat) (d du : Bool) (MI' : MachineInstr),
       MI.SetMachineOperandVal TID i ty V d du = some MI' →
       ∃ o, MI'.operands[i]? = some o ∧
         o.opIsDef = (d || decide ((TID MI.opCode).resultPos = (i : Int))) ∧
         o.opIsDefAndUse = du) ∧
    (∀ (TID : DescriptorTable) (MI : MachineInstr) (i : Nat) (r : Int)
       (d : Bool) (MI' : MachineInstr),
       MI.SetMachineOperandReg TID i r d = some MI' →
       ∃ o, MI'.operands[i]? = some o ∧
         o.opIsDef = (d || decide ((TID MI.opCode).resultPos = (i : Int))) ∧
         o.opIsDefAndUse = false) ∧
    ((MachineInstr.mkExplicit 0 2).SetMachineOperandVal TIDres0 0
        .MO_VirtualRegister 5 false false).map
      (fun MI' => MI'.operands[0]?.map
        (fun o => (o.opIsDef, o.hasAllocatedReg))) = some (some (true, false)) := by
  refine ⟨?_, ?_, by decide⟩
  · intro TID MI i ty V d du MI' hset
    rw [SetMachineOperandVal_char] at hset
    cases hx : MI.operands[i]? with
    | none => rw [hx] at hset; exact Option.noConfusion hset
    | some old =>
      rw [hx] at hset
      have hl : i < MI.operands.length := by
        by_contra hc
        rw [List.getElem?_eq_none (by omega)] at hx
        exact Option.noConfusion hx
      obtain rfl : MI' = _ := (Option.some_inj.mp hset).symm
      refine ⟨valOperand ty V old.immedVal
        (d || decide ((TID MI.opCode).resultPos = (i : Int))) du, ?_, rfl, rfl⟩
      show (MI.operands.set i _)[i]? = _
      exact List.getElem?_set_eq_of_lt _ hl
  · intro TID MI i r d MI' hset
    rw [SetMachineOperandReg_char] at hset
    by_cases hi : i < MI.getNumOperands
    · rw [if_pos hi] at hset
      have hl : i < MI.operands.length := lt_length_of_lt_getNumOperands MI i hi
      rw [List.getElem?_eq_getElem hl] at hset
      obtain rfl : MI' = _ := (Option.some_inj.mp hset).symm
      refine ⟨regOperand r (MI.operands[i]).immedVal
        (d || decide ((TID MI.opCode).resultPos = (i : Int))), ?_, rfl, rfl⟩
      show ((MI.operands.set i _))[i]? = _
      exact List.getElem?_set_eq_of_lt _ hl
    · rw [if_neg hi] at hset
      exact Option.noConfusion hset

/-- C6 witness: the value setter at index 1 of a two-operand instruction with
result position 0 and `isdef` true marks a plain def. -/
theorem C6_def_classification_witness :
    ∃ o, ((MachineInstr.mkExplicit 0 2).SetMachineOperandVal TIDres0 1
        .MO_VirtualRegister 5 true false).get (by decide) |>.operands[1]? = some o ∧
      o.opIsDef = (true || decide ((TIDres0 (MachineInstr.mkExplicit 0 2).opCode).resultPos
        = ((1 : Nat) : Int))) ∧
      o.opIsDefAndUse = false := by
  have h := C6_def_classification_from_flag_or_descriptor.1 TIDres0
    (MachineInstr.mkExplicit 0 2) 1 .MO_VirtualRegister 5 true false
    (((MachineInstr.mkExplicit 0 2).SetMachineOperandVal TIDres0 1
        .MO_VirtualRegister 5 true false).get (by decide))
    (by decide)
  exact h

/-- C7: fixed-arity construction with a non-negatively declared count `n`
yields exactly `n` explicit operands and a complete operand list; and
`OperandsComplete` holds exactly when the declared count is non-negative and
the current explicit operand count has reached or exceeded it. -/
theorem C7_fixed_arity_complete :
    (∀ (TID : DescriptorTable) (opc : Nat),
       0 ≤ (TID opc).numOperands →
       ∃ MI, MachineInstr.mkFixed TID opc = some MI ∧
         (MI.getNumOperands : Int) = (TID opc).numOperands ∧
         MI.OperandsComplete TID = true) ∧
    (∀ (TID : DescriptorTable) (MI : MachineInstr),
       MI.OperandsComplete TID = true ↔
         (0 ≤ (TID MI.opCode).numOperands ∧
          (TID MI.opCode).numOperands.toNat ≤ MI.getNumOperands)) := by
  constructor
  · intro TID opc h
    refine ⟨{ opCode := opc,
              operands := List.replicate (TID opc).numOperands.toNat .initial,
              numImplicitRefs := 0, regsUsed := [] }, ?_, ?_, ?_⟩
    · unfold MachineInstr.mkFixed
      rw [if_pos h]
    · simp [MachineInstr.getNumOperands, Int.toNat_of_nonneg h]
    · simp [MachineInstr.OperandsComplete, MachineInstr.getNumOperands, h]
  · intro TID MI
    unfold MachineInstr.OperandsComplete
    constructor
    · intro h
      by_cases hc : 0 ≤ (TID MI.opCode).numOperands ∧
          (TID MI.opCode).numOperands.toNat ≤ MI.getNumOperands
      · exact hc
      · rw [if_neg hc] at h
        exact Bool.noConfusion h
    · intro hc
      rw [if_pos hc]

/-- C7 witness: an opcode declaring two operands constructs complete. -/
theorem C7_fixed_arity_complete_witness :
    ∃ MI, MachineInstr.mkFixed TIDres0 0 = some MI ∧
      (MI.getNumOperands : Int) = (TIDres0 0).numOperands ∧
      MI.OperandsComplete TIDres0 = true :=
  C7_fixed_arity_complete.1 TIDres0 0 (by decide)

/-- C8: `replace` succeeds exactly when the instruction has zero implicit
references, and then sets the opcode and reinitializes the operand sequence to
exactly `new_operand_count` default operands. -/
theorem C8_replace_requires_no_implicit_refs :
    ∀ (MI : MachineInstr) (opc n : Nat),
      ((MI.replace opc n).isSome = true ↔ MI.numImplicitRefs = 0) ∧
      ((MI.replace opc n).map
          (fun MI' => (MI'.opCode, MI'.getNumOperands, MI'.operands)) =
        if MI.numImplicitRefs = 0 then
          some (opc, n, List.replicate n MachineOperand.initial)
        else none) := by
  intro MI opc n
  unfold MachineInstr.replace
  by_cases h : MI.numImplicitRefs = 0
  · simp [h, MachineInstr.getNumOperands]
  · simp [h]

/-- C8 witness: `replace` succeeds on an instruction without implicit
references and fails on one with an implicit reference. -/
theorem C8_replace_requires_no_implicit_refs_witness :
    ((MachineInstr.mkExplicit 0 1).replace 3 2).isSome = true ∧
    (oneExplOneImpl.replace 3 2).isSome = false := by
  constructor
  · exact (C8_replace_requires_no_implicit_refs (MachineInstr.mkExplicit 0 1) 3 2).1.mpr
      (by decide)
  · have h := (C8_replace_requires_no_implicit_refs oneExplOneImpl 3 2).1
    by_cases hs : (oneExplOneImpl.replace 3 2).isSome = true
    · exact absurd (h.mp hs) (by decide)
    · simpa using hs

/-- C9: after `SetRegForOperand(i, r)` — and likewise after
`SetMachineOperandReg(i, r, isdef)` — the instruction's used-register set
contains `r`. -/
theorem C9_setters_record_used_register :
    ∀ (TID : DescriptorTable) (MI : MachineInstr) (i : Nat) (r : Int) (d : Bool),
      i < MI.getNumOperands →
      (∃ MI', MI.SetRegForOperand i r = some MI' ∧ r ∈ MI'.regsUsed) ∧
      (∃ MI', MI.SetMachineOperandReg TID i r d = some MI' ∧ r ∈ MI'.regsUsed) := by
  intro TID MI i r d hi
  have hl : i < MI.operands.length := lt_length_of_lt_getNumOperands MI i hi
  constructor
  · unfold MachineInstr.SetRegForOperand
    rw [if_pos hi, List.getElem?_eq_getElem hl]
    exact ⟨_, rfl, List.mem_insert_self r MI.regsUsed⟩
  · rw [SetMachineOperandReg_char, if_pos hi, List.getElem?_eq_getElem hl]
    exact ⟨_, rfl, List.mem_insert_self r MI.regsUsed⟩

/-- C9 witness: binding register 5 to operand 0 of a two-operand instruction
records 5 in the used-register set, through either entry point. -/
theorem C9_setters_record_used_register_witness :
    (∃ MI', (MachineInstr.mkExplicit 0 2).SetRegForOperand 0 5 = some MI' ∧
      (5 : Int) ∈ MI'.regsUsed) ∧
    (∃ MI', (MachineInstr.mkExplicit 0 2).SetMachineOperandReg TIDres0 0 5 false
      = some MI' ∧ (5 : Int) ∈ MI'.regsUsed) :=
  C9_setters_record_used_register TIDres0 (MachineInstr.mkExplicit 0 2) 0 5 false
    (by decide)

/-- C10: each successful operand setter fully determines the slot's register
field and flag word from the call arguments alone — the register is reset to
the `-1` sentinel (or, for `SetMachineOperandReg`, set to the given register)
and the flag word is cleared before the new def/def-and-use classification is
applied, so any previously bound register and any previous address-modifier or
def/use bits are discarded. -/
theorem C10_setters_overwrite_register_and_flags :
    (∀ (TID : DescriptorTable) (MI : MachineInstr) (i : Nat)
       (ty : MachineOperandType) (V : Nat) (d du : Bool) (MI' : MachineInstr),
       MI.SetMachineOperandVal TID i ty V d du = some MI' →
       ∃ o, MI'.operands[i]? = some o ∧ o.regNum = -1 ∧
         o.flags = markedFlags
           (d || decide ((TID MI.opCode).resultPos = (i : Int))) du) ∧
    (∀ (TID : DescriptorTable) (MI : MachineInstr) (i : Nat)
       (ty : MachineOperandType) (v : Int) (MI' : MachineInstr),
       MI.SetMachineOperandConst TID i ty v = some MI' →
       ∃ o, MI'.operands[i]? = some o ∧ o.regNum = -1 ∧
         o.flags = OperandFlags.zero) ∧
    (∀ (TID : DescriptorTable) (MI : MachineInstr) (i : Nat) (r : Int)
       (d : Bool) (MI' : MachineInstr),
       MI.SetMachineOperandReg TID i r d = some MI' →
       ∃ o, MI'.operands[i]? = some o ∧ o.regNum = r ∧
         o.flags = markedFlags
           (d || decide ((TID MI.opCode).resultPos = (i : Int))) false) := by
  refine ⟨?_, ?_, ?_⟩
  · intro TID MI i ty V d du MI' hset
    rw [SetMachineOperandVal_char] at hset
    cases hx : MI.operands[i]? with
    | none => rw [hx] at hset; exact Option.noConfusion hset
    | some old =>
      rw [hx] at hset
      have hl : i < MI.operands.length := by
        by_contra hc
        rw [List.getElem?_eq_none (by omega)] at hx
        exact Option.noConfusion hx
      obtain rfl : MI' = _ := (Option.some_inj.mp hset).symm
      refine ⟨valOperand ty V old.immedVal
        (d || decide ((TID MI.opCode).resultPos = (i : Int))) du, ?_, rfl, rfl⟩
      show (MI.operands.set i _)[i]? = _
      exact List.getElem?_set_eq_of_lt _ hl
  · intro TID MI i ty v MI' hset
    unfold MachineInstr.SetMachineOperandConst at hset
    by_cases hc : i < MI.getNumOperands ∧ (TID MI.opCode).resultPos ≠ (i : Int)
    · rw [if_pos hc] at hset
      have hl : i < MI.operands.length :=
        lt_length_of_lt_getNumOperands MI i hc.1
      obtain rfl : MI' = _ := (Option.some_inj.mp hset).symm
      refine ⟨{ opType := ty, value := none, immedVal := v, regNum := -1,
                flags := .zero }, ?_, rfl, rfl⟩
      show (MI.operands.set i _)[i]? = _
      exact List.getElem?_set_eq_of_lt _ hl
    · rw [if_neg hc] at hset
      exact Option.noConfusion hset
  · intro TID MI i r d MI' hset
    rw [SetMachineOperandReg_char] at hset
    by_cases hi : i < MI.getNumOperands
    · rw [if_pos hi] at hset
      have hl : i < MI.operands.length := lt_length_of_lt_getNumOperands MI i hi
      rw [List.getElem?_eq_getElem hl] at hset
      obtain rfl : MI' = _ := (Option.some_inj.mp hset).symm
      refine ⟨regOperand r (MI.operands[i]).immedVal
        (d || decide ((TID MI.opCode).resultPos = (i : Int))), ?_, rfl, rfl⟩
      show (MI.operands.set i _)[i]? = _
      exact List.getElem?_set_eq_of_lt _ hl
    · rw [if_neg hi] at hset
      exact Option.noConfusion hset

/-- C10 witness: overwriting a slot that previously had a bound register and
set flags leaves exactly the new classification. -/
theorem C10_setters_overwrite_witness :
    ∃ o, (substMI.SetMachineOperandConst TIDnores 1 .MO_SignExtendedImmed 9).get
        (by decide) |>.operands[1]? = some o ∧ o.regNum = -1 ∧
      o.flags = OperandFlags.zero :=
  C10_setters_overwrite_register_and_flags.2.1 TIDnores substMI 1
    .MO_SignExtendedImmed 9
    ((substMI.SetMachineOperandConst TIDnores 1 .MO_SignExtendedImmed 9).get
      (by decide))
    (by decide)

/-- C4 counterexample: on a default virtual-register operand with a null value
reference, the two rendering forms disagree on content even with register-name
resolution held equal — the target-aware form prints nothing while the fallback
form prints a `%reg(val 0x0)` item. -/
theorem C4_counterexample_null_vreg_renders_differ :
    printOperand envPlain none MachineOperand.initial = "" ∧
    streamOperand envPlain MachineOperand.initial = "%reg(val 0x0)" := by
  constructor <;> rfl

/-- C4 (amended): for every operand other than a virtual-register operand whose
value reference is null, the two rendering forms produce the same operand
content when instantiated with the same register-name resolution (here the
context-free fallback resolution); a null-valued virtual-register operand
renders as its allocated register only (or nothing) in the target-aware form
but as an explicit `%reg(val 0x0)` item in the fallback form. -/
theorem C4_amended_renders_agree_on_nonnull_vreg :
    ∀ (env : RenderEnv) (MO : MachineOperand),
      (MO.opType = .MO_VirtualRegister → MO.value.isSome = true) →
      printOperand env none MO = streamOperand env MO := by
  intro env MO h
  unfold printOperand streamOperand
  cases hty : MO.opType
  case MO_VirtualRegister =>
    cases hv : MO.value with
    | none =>
      have := h hty
      rw [hv] at this
      exact Bool.noConfusion this
    | some v =>
      by_cases ha : MO.hasAllocatedReg = true
      · simp [hv, ha, String.append_assoc]
      · simp only [Bool.not_eq_true] at ha
        simp [hv, ha]
  all_goals simp

/-- C4 witness: on a virtual-register operand carrying a value reference the
two forms agree. -/
theorem C4_amended_renders_agree_witness :
    printOperand envPlain none opUse1 = streamOperand envPlain opUse1 :=
  C4_amended_renders_agree_on_nonnull_vreg envPlain opUse1 (by decide)

/-- C3 (amended) witness: on an instruction with one explicit operand and one
implicit reference, the register setter rejects index 1 while the value setter
accepts it. -/
theorem C3_amended_setter_index_validation_witness :
    (oneExplOneImpl.SetMachineOperandReg TIDnores 1 7 false).isSome = false ∧
    (oneExplOneImpl.SetMachineOperandVal TIDnores 1 .MO_VirtualRegister 7
      false false).isSome = true := by
  have h := C3_amended_setter_index_validation TIDnores oneExplOneImpl 1
    .MO_VirtualRegister 7 false false 7 0
  constructor
  · by_cases hs : (oneExplOneImpl.SetMachineOperandReg TIDnores 1 7 false).isSome
      = true
    · exact absurd (h.1.mp hs) (by decide)
    · simpa using hs
  · exact h.2.2.mpr (by decide)
